import Mathlib

/-!
A verification development for the `wow-vr` repository's binary-format
decoding pipeline (`src/wow_vr_lib`).  The Rust sources are embedded
shallowly: machine integers become `Nat` with explicit masking where the
source masks or where wrap-around matters (release-mode wrapping semantics),
byte buffers become `List Nat` (one `Nat` per byte), fallible functions
return `Except`/`Option`, and Rust panics (out-of-bounds `Vec` indexing,
`unreachable!`, `unwrap` of an error) are modelled by an explicit `panicked`
outcome.  `f32` values touched only by moves and exact sign negation are
modelled as `Int`.  zlib inflation is a call into the `flate2` library and
is taken as an oracle parameter `inflate`.
-/

namespace WowVr

/-- Result of running a fallible Rust function that may also panic. -/
inductive Outcome (ε α : Type) where
  | ok (a : α)
  | err (e : ε)
  | panicked
deriving DecidableEq

/-- Lift a `Result` value into an `Outcome` (the `?` operator on a tail call). -/
def ofExcept {ε α : Type} : Except ε α → Outcome ε α
  | .ok a => .ok a
  | .error e => .err e

/-- Little-endian `u32` from four bytes (byteorder `read_u32::<LittleEndian>`). -/
def u32le (b0 b1 b2 b3 : Nat) : Nat := b0 + b1 * 256 + b2 * 65536 + b3 * 16777216

/-- The four little-endian bytes of a `u32` (byteorder `write_u32::<LittleEndian>`). -/
def toLEBytes (v : Nat) : List Nat :=
  [v % 256, v / 256 % 256, v / 65536 % 256, v / 16777216 % 256]

namespace Mpq

/-- Inner loop of the `ENCRYPTION_TABLE` construction (mpq.rs lines 51-61):
five slot writes for one `i`, carrying the seed; `index` advances by `0x100`
after each write.  All intermediate values fit in `u32`, so no masking is
needed (`seed < 0x2AAAAB`, hence `seed * 125 + 3 < 2^32`). -/
def encSlots : Nat → Nat → Nat → List Nat → Nat × List Nat
  | 0, seed, _, table => (seed, table)
  | k + 1, seed, index, table =>
    let seed := (seed * 125 + 3) % 0x2AAAAB
    let temp1 := (seed &&& 0xFFFF) <<< 0x10
    let seed := (seed * 125 + 3) % 0x2AAAAB
    let temp2 := seed &&& 0xFFFF
    encSlots k seed (index + 0x100) (table.set index (temp1 ||| temp2))

/-- Outer loop of the `ENCRYPTION_TABLE` construction (mpq.rs lines 49-62):
`i` ranges over `0..256`; the seed is carried across all iterations in this
nesting order. -/
def encRows : Nat → Nat → Nat → List Nat → List Nat
  | 0, _, _, table => table
  | r + 1, i, seed, table =>
    let p := encSlots 5 seed i table
    encRows r (i + 1) p.1 p.2

/-- mpq.rs `ENCRYPTION_TABLE`: the 1280-entry cipher table, from seed
`0x00100001` over `vec![0u32; 256 * 5]`. -/
def ENCRYPTION_TABLE : List Nat := encRows 256 0 0x00100001 (List.replicate (256 * 5) 0)

/-! ### A closed form for the table

The construction writes each position exactly once.  Position
`j = i + 0x100 * slot` is written at overall write-step `5 * i + slot`, and
each write consumes two seed updates.  The following closed form is proved
equal to the constructed table and lets later proofs evaluate individual
table entries cheaply. -/

/-- One seed update of the table construction. -/
def crNext (s : Nat) : Nat := (s * 125 + 3) % 0x2AAAAB

/-- The `n`-fold seed update. -/
def crIter : Nat → Nat → Nat
  | 0, s => s
  | n + 1, s => crIter n (crNext s)

/-- The entry written when the carried seed is `seed`. -/
def encEntry (seed : Nat) : Nat :=
  ((crNext seed &&& 0xFFFF) <<< 0x10) ||| (crNext (crNext seed) &&& 0xFFFF)

/-- Closed form for the entry at position `j` of the table. -/
def encValue (j : Nat) : Nat :=
  encEntry (crIter (2 * (5 * (j % 256) + j / 256)) 0x00100001)

/-- Note `crNext` is the affine map `s ↦ (s * 125 + 3) % M`; an affine map is
represented by its coefficient pair.  `apAffine (a, b) s = (s * a + b) % M`. -/
def apAffine (p : Nat × Nat) (s : Nat) : Nat := (s * p.1 + p.2) % 0x2AAAAB

/-- Composition of affine maps modulo `M`: apply `q` first, then `p`. -/
def affineComp (p q : Nat × Nat) : Nat × Nat :=
  ((q.1 * p.1) % 0x2AAAAB, (q.2 * p.1 + p.2) % 0x2AAAAB)

/-- Little-endian bits of `n` (with fuel), for fast affine exponentiation. -/
def natBits : Nat → Nat → List Bool
  | 0, _ => []
  | f + 1, n => if n = 0 then [] else decide (n % 2 = 1) :: natBits f (n / 2)

/-- Numeric value of a little-endian bit list. -/
def bitsVal : List Bool → Nat
  | [] => 0
  | b :: r => (if b then 1 else 0) + 2 * bitsVal r

/-- Here `affinePow p bits = p^(bitsVal bits)` by square-and-multiply. -/
def affinePow (p : Nat × Nat) : List Bool → Nat × Nat
  | [] => (1, 0)
  | b :: rest =>
    affineComp (affinePow (affineComp p p) rest) (if b then p else (1, 0))

/-- The `n`-fold application of an affine map (reference form). -/
def apIter (p : Nat × Nat) : Nat → Nat → Nat
  | 0, s => s
  | n + 1, s => apIter p n (apAffine p s)

/-- Fast evaluation of `crIter`: depth-logarithmic in `n`.  `crIterFast_eq`
proves it agrees with `crIter` on seeds below the modulus. -/
def crIterFast (n s : Nat) : Nat := apAffine (affinePow (125, 3) (natBits 64 n)) s

theorem crIter_succ (n s : Nat) : crIter (n + 1) s = crIter n (crNext s) := rfl

theorem crIter_add (m n s : Nat) : crIter m (crIter n s) = crIter (m + n) s := by
  induction n generalizing s with
  | zero => rfl
  | succ n ih =>
    rw [crIter_succ, ih (crNext s)]
    have h : m + (n + 1) = (m + n) + 1 := by omega
    rw [h, crIter_succ]

theorem apAffine_comp (p q : Nat × Nat) (s : Nat) :
    apAffine (affineComp p q) s = apAffine p (apAffine q s) := by
  unfold apAffine affineComp
  have h1 : s * ((q.1 * p.1) % 0x2AAAAB) + (q.2 * p.1 + p.2) % 0x2AAAAB
      ≡ s * (q.1 * p.1) + (q.2 * p.1 + p.2) [MOD 0x2AAAAB] :=
    ((Nat.mod_modEq _ _).mul_left s).add (Nat.mod_modEq _ _)
  have h2 : (s * q.1 + q.2) % 0x2AAAAB * p.1 + p.2
      ≡ (s * q.1 + q.2) * p.1 + p.2 [MOD 0x2AAAAB] :=
    ((Nat.mod_modEq _ _).mul_right p.1).add_right p.2
  have h3 : s * (q.1 * p.1) + (q.2 * p.1 + p.2) = (s * q.1 + q.2) * p.1 + p.2 := by ring
  exact h1.trans (h3 ▸ h2.symm)

theorem apIter_succ (p : Nat × Nat) (n s : Nat) :
    apIter p (n + 1) s = apIter p n (apAffine p s) := rfl

theorem apIter_sq (p : Nat × Nat) : ∀ (m s : Nat),
    apIter (affineComp p p) m s = apIter p (2 * m) s := by
  intro m
  induction m with
  | zero => intro s; rfl
  | succ m ih =>
    intro s
    rw [apIter_succ, apAffine_comp, ih]
    have h : 2 * (m + 1) = (2 * m + 1) + 1 := by omega
    rw [h, apIter_succ, apIter_succ]

theorem apAffine_affinePow : ∀ (bits : List Bool) (p : Nat × Nat) (s : Nat),
    s < 0x2AAAAB →
    apAffine (affinePow p bits) s = apIter p (bitsVal bits) s := by
  intro bits
  induction bits with
  | nil =>
    intro p s hs
    show (s * 1 + 0) % 0x2AAAAB = s
    rw [Nat.mul_one, Nat.add_zero, Nat.mod_eq_of_lt hs]
  | cons b rest ih =>
    intro p s hs
    show apAffine (affineComp (affinePow (affineComp p p) rest) (if b then p else (1, 0))) s
        = apIter p (bitsVal (b :: rest)) s
    rw [apAffine_comp]
    have hlt : apAffine (if b = true then p else (1, 0)) s < 0x2AAAAB :=
      Nat.mod_lt _ (by omega)
    rw [ih _ _ hlt, apIter_sq]
    cases b with
    | true =>
      show apIter p (2 * bitsVal rest) (apAffine p s) = apIter p (1 + 2 * bitsVal rest) s
      have h : 1 + 2 * bitsVal rest = (2 * bitsVal rest) + 1 := by omega
      rw [h, apIter_succ]
    | false =>
      show apIter p (2 * bitsVal rest) ((s * 1 + 0) % 0x2AAAAB)
          = apIter p (0 + 2 * bitsVal rest) s
      rw [Nat.mul_one, Nat.add_zero, Nat.mod_eq_of_lt hs, Nat.zero_add]

theorem bitsVal_natBits : ∀ (f n : Nat), n < 2 ^ f → bitsVal (natBits f n) = n := by
  intro f
  induction f with
  | zero => intro n hn; interval_cases n; rfl
  | succ f ih =>
    intro n hn
    show bitsVal (if n = 0 then [] else decide (n % 2 = 1) :: natBits f (n / 2)) = n
    by_cases h0 : n = 0
    · rw [if_pos h0, h0]; rfl
    · rw [if_neg h0]
      have hdiv : n / 2 < 2 ^ f := by
        rw [Nat.div_lt_iff_lt_mul (by omega)]
        calc n < 2 ^ (f + 1) := hn
        _ = 2 ^ f * 2 := by rw [Nat.pow_succ]
      show (if decide (n % 2 = 1) then 1 else 0) + 2 * bitsVal (natBits f (n / 2)) = n
      rw [ih _ hdiv]
      rcases Nat.mod_two_eq_zero_or_one n with h | h <;> simp [h] <;> omega

theorem crIter_eq_apIter : ∀ (n s : Nat), crIter n s = apIter (125, 3) n s := by
  intro n
  induction n with
  | zero => intro s; rfl
  | succ n ih => intro s; exact ih (crNext s)

theorem crIterFast_eq (n s : Nat) (hn : n < 2 ^ 64) (hs : s < 0x2AAAAB) :
    crIterFast n s = crIter n s := by
  rw [crIterFast, apAffine_affinePow _ _ _ hs, bitsVal_natBits 64 n hn, crIter_eq_apIter]

theorem encSlots_succ (k seed index : Nat) (table : List Nat) :
    encSlots (k + 1) seed index table
      = encSlots k (crNext (crNext seed)) (index + 0x100)
          (table.set index (encEntry seed)) := rfl

theorem encSlots_fst : ∀ (k seed index : Nat) (table : List Nat),
    (encSlots k seed index table).1 = crIter (2 * k) seed := by
  intro k
  induction k with
  | zero => intro seed index table; rfl
  | succ k ih =>
    intro seed index table
    rw [encSlots_succ, ih]
    have h : 2 * (k + 1) = (2 * k + 1) + 1 := by omega
    rw [h, crIter_succ, crIter_succ]

theorem encSlots_length : ∀ (k seed index : Nat) (table : List Nat),
    ((encSlots k seed index table).2).length = table.length := by
  intro k
  induction k with
  | zero => intro seed index table; rfl
  | succ k ih =>
    intro seed index table
    rw [encSlots_succ, ih, List.length_set]

theorem encSlots_get?_untouched :
    ∀ (k seed index : Nat) (table : List Nat) (j : Nat),
      (∀ m, m < k → j ≠ index + 0x100 * m) →
      ((encSlots k seed index table).2).get? j = table.get? j := by
  intro k
  induction k with
  | zero => intro seed index table j _; rfl
  | succ k ih =>
    intro seed index table j h
    rw [encSlots_succ, ih]
    · exact List.get?_set_ne _ _ (by have := h 0 (by omega); omega)
    · intro m hm
      have := h (m + 1) (by omega)
      omega

theorem encSlots_get?_written :
    ∀ (k m : Nat), m < k → ∀ (seed index : Nat) (table : List Nat),
      index + 0x100 * m < table.length →
      ((encSlots k seed index table).2).get? (index + 0x100 * m)
        = some (encEntry (crIter (2 * m) seed)) := by
  intro k
  induction k with
  | zero => intro m hm; omega
  | succ k ih =>
    intro m hm seed index table hlen
    rw [encSlots_succ]
    match m with
    | 0 =>
      rw [encSlots_get?_untouched]
      · have hidx : index + 0x100 * 0 = index := by omega
        rw [hidx] at hlen ⊢
        exact List.get?_set_eq_of_lt _ hlen
      · intro m' _
        omega
    | m' + 1 =>
      have hpos : index + 0x100 * (m' + 1) = (index + 0x100) + 0x100 * m' := by omega
      rw [hpos]
      rw [ih m' (by omega) _ _ _ (by rw [List.length_set]; omega)]
      have h2 : 2 * (m' + 1) = (2 * m' + 1) + 1 := by omega
      rw [h2, crIter_succ, crIter_succ]

theorem encRows_succ (r i seed : Nat) (table : List Nat) :
    encRows (r + 1) i seed table
      = encRows r (i + 1) (encSlots 5 seed i table).1 (encSlots 5 seed i table).2 := rfl

theorem encRows_length : ∀ (r i seed : Nat) (table : List Nat),
    (encRows r i seed table).length = table.length := by
  intro r
  induction r with
  | zero => intro i seed table; rfl
  | succ r ih =>
    intro i seed table
    rw [encRows_succ, ih, encSlots_length]

theorem encRows_get?_untouched :
    ∀ (r i seed : Nat) (table : List Nat) (j : Nat),
      (∀ q s, q < r → s < 5 → j ≠ (i + q) + 0x100 * s) →
      (encRows r i seed table).get? j = table.get? j := by
  intro r
  induction r with
  | zero => intro i seed table j _; rfl
  | succ r ih =>
    intro i seed table j h
    rw [encRows_succ, ih]
    · apply encSlots_get?_untouched
      intro m hm
      have := h 0 m (by omega) (by omega)
      omega
    · intro q s hq hs
      have := h (q + 1) s (by omega) hs
      omega

theorem encRows_get?_written :
    ∀ (r q : Nat), q < r → ∀ (s : Nat), s < 5 → ∀ (i seed : Nat) (table : List Nat),
      i + r ≤ 256 → (i + q) + 0x100 * s < table.length →
      (encRows r i seed table).get? ((i + q) + 0x100 * s)
        = some (encEntry (crIter (2 * (5 * q + s)) seed)) := by
  intro r
  induction r with
  | zero => intro q hq; omega
  | succ r ih =>
    intro q hq s hs i seed table hir hlen
    rw [encRows_succ]
    match q with
    | 0 =>
      rw [encRows_get?_untouched]
      · have hpos : (i + 0) + 0x100 * s = i + 0x100 * s := by omega
        rw [hpos] at hlen ⊢
        rw [encSlots_get?_written 5 s hs _ _ _ hlen]
        have h5 : 5 * 0 + s = s := by omega
        rw [h5]
      · intro q' s' hq' hs'
        omega
    | q' + 1 =>
      have hpos : (i + (q' + 1)) + 0x100 * s = ((i + 1) + q') + 0x100 * s := by omega
      rw [hpos]
      rw [ih q' (by omega) s hs (i + 1) _ _ (by omega)
            (by rw [encSlots_length]; omega)]
      rw [encSlots_fst, crIter_add]
      have h2 : 2 * (5 * q' + s) + 2 * 5 = 2 * (5 * (q' + 1) + s) := by omega
      rw [h2]

theorem encTable_get? (j : Nat) (h : j < 1280) :
    ENCRYPTION_TABLE.get? j = some (encValue j) := by
  have hq : j % 256 < 256 := Nat.mod_lt _ (by omega)
  have hs : j / 256 < 5 := by omega
  have hj : (0 + j % 256) + 0x100 * (j / 256) = j := by omega
  have := encRows_get?_written 256 (j % 256) hq (j / 256) hs 0 0x00100001
    (List.replicate (256 * 5) 0) (by omega)
    (by rw [List.length_replicate]; omega)
  rw [hj] at this
  exact this

theorem encTable_length : ENCRYPTION_TABLE.length = 1280 := by
  rw [ENCRYPTION_TABLE, encRows_length, List.length_replicate]

/-- Reading `ENCRYPTION_TABLE[idx]` (a `Vec<u32>` index; every read in the
source is in range) as a total map. -/
def encTableFun : Nat → Nat := fun j => ENCRYPTION_TABLE.getD j 0

/-- Depth-efficient form of `encValue`. -/
def encValueF (j : Nat) : Nat :=
  encEntry (crIterFast (2 * (5 * (j % 256) + j / 256)) 0x00100001)

theorem encValueF_eq (j : Nat) (h : j < 1280) : encValueF j = encValue j := by
  rw [encValueF, encValue, crIterFast_eq]
  · calc 2 * (5 * (j % 256) + j / 256) ≤ 2558 := by omega
    _ < 2 ^ 64 := by norm_num
  · norm_num

/-- Evaluation-friendly form of the table map. -/
def encTableFast : Nat → Nat := fun j => if j < 1280 then encValueF j else 0

/-- The cipher-table map equals its closed form. -/
theorem encTableFun_eq : encTableFun = encTableFast := by
  funext j
  rw [encTableFun, encTableFast]
  by_cases h : j < 1280
  · rw [if_pos h, encValueF_eq j h, List.getD_eq_getD_get?, encTable_get? j h]
    rfl
  · rw [if_neg h, List.getD_eq_getD_get?, List.get?_eq_none.mpr (by rw [encTable_length]; omega)]
    rfl

/-! ### Hashing, decryption, decompression (mpq.rs) -/

/-- mpq.rs `HashType`; the discriminants are the declaration order 0..3. -/
inductive HashType where
  | tableOffset
  | hashA
  | hashB
  | table
deriving DecidableEq

def HashType.toNat : HashType → Nat
  | .tableOffset => 0
  | .hashA => 1
  | .hashB => 2
  | .table => 3

/-- ASCII uppercasing of one byte (`str::to_uppercase` restricted to ASCII
input, which is byte-wise). -/
def asciiUpper (c : Nat) : Nat := if 97 ≤ c ∧ c ≤ 122 then c - 32 else c

/-- The character loop of mpq.rs `hash` (lines 141-146), over the already
uppercased bytes, carrying `(seed1, seed2)`.  The source keeps both seeds in
`u64` and masks with `& 0xFFFFFFFF` exactly where shown. -/
def hashLoop (table : Nat → Nat) (hash_type : Nat) : List Nat → Nat → Nat → Nat
  | [], seed1, _ => seed1
  | ch :: rest, seed1, seed2 =>
    let value := table ((hash_type <<< 8) + ch)
    let seed1 := (value ^^^ (seed1 + seed2)) &&& 0xFFFFFFFF
    let seed2 := (ch + seed1 + seed2 + (seed2 <<< 5) + 3) &&& 0xFFFFFFFF
    hashLoop table hash_type rest seed1 seed2

/-- mpq.rs `hash` (lines 134-148), parameterized by the cipher table.  The
source uppercases the string first and iterates its bytes; it returns
`Ok(seed1 as u32)` and has no error path, so the `Result` wrapper is
omitted. -/
def hashT (table : Nat → Nat) (string : List Nat) (hash_type : HashType) : Nat :=
  hashLoop table hash_type.toNat (string.map asciiUpper) 0x7FED7FED 0xEEEEEEEE

/-- mpq.rs `hash` applied to the process-wide `ENCRYPTION_TABLE`. -/
def hash (string : List Nat) (hash_type : HashType) : Nat :=
  hashT encTableFun string hash_type

theorem hash_fast : hash = hashT encTableFast := by
  funext s t
  rw [hash, encTableFun_eq]

/-- mpq.rs `CompressionType` (the `u8` discriminants are in `toU8`). -/
inductive CompressionType where
  | huffmann
  | zlib
  | pkware
  | bzip2
  | sparse
  | adpcmMono
  | adpcmStereo
deriving DecidableEq

def CompressionType.toU8 : CompressionType → Nat
  | .huffmann => 0x01
  | .zlib => 0x02
  | .pkware => 0x08
  | .bzip2 => 0x10
  | .sparse => 0x20
  | .adpcmMono => 0x40
  | .adpcmStereo => 0x80

/-- mpq.rs `Error`.  `io` covers `Error::Io(_)` whose payload is an
`io::Error`; `generic` carries the `&'static str` payload. -/
inductive MpqError where
  | invalidFile
  | notLoaded
  | decode
  | fileNotFound
  | generic (msg : String)
  | unsupportedCompression (t : CompressionType)
  | unknownCompression (b : Nat)
  | ioError
  | fromUtf8Error
deriving DecidableEq

/-- The impl `TryFrom<u8> for CompressionType` (mpq.rs lines 98-113). -/
def compressionTypeTryFrom (value : Nat) : Except MpqError CompressionType :=
  if value = 0x01 then .ok .huffmann
  else if value = 0x02 then .ok .zlib
  else if value = 0x08 then .ok .pkware
  else if value = 0x10 then .ok .bzip2
  else if value = 0x20 then .ok .sparse
  else if value = 0x40 then .ok .adpcmMono
  else if value = 0x80 then .ok .adpcmStereo
  else .error (.unknownCompression value)

/-- mpq.rs `decompress` (lines 115-125).  Only zlib is implemented, through
the `flate2` library, modelled by the `inflate` oracle (`none` = the decoder
reported an error, surfaced as `Error::Io`). -/
def decompress (inflate : List Nat → Option (List Nat))
    (compression_type : CompressionType) (data : List Nat) :
    Except MpqError (List Nat) :=
  match compression_type with
  | .zlib =>
    match inflate data with
    | some d => .ok d
    | none => .error .ioError
  | _ => .error (.unsupportedCompression compression_type)

/-- The word loop of mpq.rs `decrypt` (lines 74-83): for each little-endian
`u32` of the input, update the seeds and emit the decrypted word.  Trailing
bytes beyond the last whole word are not visited.  `seed1`/`seed2` live in
`u64`; the `!seed1` complement is a 64-bit complement and the left shift
drops bits above the 64th (release semantics), after which `seed1` is masked
back to 32 bits. -/
def decryptWords (table : Nat → Nat) : List Nat → Nat → Nat → List Nat
  | b0 :: b1 :: b2 :: b3 :: rest, seed1, seed2 =>
    let seed2 := (seed2 + table (0x400 + (seed1 &&& 0xFF))) &&& 0xFFFFFFFF
    let value := (u32le b0 b1 b2 b3 ^^^ (seed1 + seed2)) &&& 0xFFFFFFFF
    let seed1 :=
      (((((2 ^ 64 - 1 - seed1) <<< 0x15) &&& (2 ^ 64 - 1)) + 0x11111111) &&& (2 ^ 64 - 1))
        ||| (seed1 >>> 0x0b)
    let seed1 := seed1 &&& 0xFFFFFFFF
    let seed2 := (value + seed2 + (seed2 <<< 5) + 3) &&& 0xFFFFFFFF
    toLEBytes value ++ decryptWords table rest seed1 seed2
  | _, _, _ => []

/-- mpq.rs `decrypt` (lines 67-85), parameterized by the cipher table.  The
output buffer starts as `vec![0u8; data.len()]` and the loop overwrites its
first `4 * (len / 4)` bytes, so the trailing `len % 4` bytes stay zero.  The
cursor reads/writes cannot fail, so there is no error path. -/
def decryptT (table : Nat → Nat) (data : List Nat) (key : Nat) :
    Except MpqError (List Nat) :=
  .ok (decryptWords table data key 0xEEEEEEEE ++ List.replicate (data.length % 4) 0)

/-- mpq.rs `decrypt` applied to the process-wide `ENCRYPTION_TABLE`. -/
def decrypt (data : List Nat) (key : Nat) : Except MpqError (List Nat) :=
  decryptT encTableFun data key

theorem decrypt_fast : decrypt = decryptT encTableFast := by
  funext d k
  rw [decrypt, encTableFun_eq]

/-! ### Archive structures and `read_file` (mpq.rs) -/

/-- mpq.rs `HashTableEntry` (all fields little-endian integers). -/
structure HashTableEntry where
  hash_a : Nat
  hash_b : Nat
  locale : Nat
  platform : Nat
  block_table_index : Nat
deriving DecidableEq

/-- mpq.rs `BlockTableEntry`. -/
structure BlockTableEntry where
  offset : Nat
  archive_size : Nat
  size : Nat
  flags : Nat
deriving DecidableEq

/-- mpq.rs `FileHeader`. -/
structure FileHeader where
  header_size : Nat
  archive_size : Nat
  format_version : Nat
  sector_shift : Nat
  hash_table_offset : Nat
  block_table_offset : Nat
  hash_table_entries : Nat
  block_table_entries : Nat
  extended_block_table_offset : Option Nat
  hash_table_offset_high : Option Nat
  hash_table_offset_low : Option Nat
deriving DecidableEq

/-- mpq.rs `MPQFile` after `load`: the archive file's bytes stand in for the
file at `file_path`; the hash table is the `HashMap` keyed by
`hash_table_key(hash_a, hash_b)` (a bijective image of the pair), modelled
as an association list. -/
structure MPQFile where
  fileData : List Nat
  header : Option FileHeader
  hash_table : Option (List ((Nat × Nat) × HashTableEntry))
  block_table : Option (List BlockTableEntry)

/-- The `HashMap::get` lookup on the association-list model. -/
def lookupHashTable (ht : List ((Nat × Nat) × HashTableEntry)) (key : Nat × Nat) :
    Option HashTableEntry :=
  (ht.find? (fun e => e.1 == key)).map (·.2)

/-- mpq.rs `get_hash_table_entry` (lines 328-341), parameterized by the
cipher table. -/
def getHashTableEntryT (table : Nat → Nat) (f : MPQFile) (filename : List Nat) :
    Except MpqError HashTableEntry :=
  let hash_a := hashT table filename .hashA
  let hash_b := hashT table filename .hashB
  match f.hash_table with
  | none => .error .notLoaded
  | some ht =>
    match lookupHashTable ht (hash_a, hash_b) with
    | some entry => .ok entry
    | none => .error .fileNotFound

/-- The call `FileExt::read_exact_at`: read exactly `len` bytes at `off`, failing
with an I/O error when the file is too short. -/
def readExactAt (data : List Nat) (off len : Nat) : Except MpqError (List Nat) :=
  if off + len ≤ data.length then .ok ((data.drop off).take len)
  else .error .ioError

/-- Reading `n` consecutive little-endian `u32`s from `data` starting at
byte `pos` (the `positions` loop of `read_file`, lines 388-390). -/
def readU32s (data : List Nat) : Nat → Nat → Except MpqError (List Nat)
  | _, 0 => .ok []
  | pos, n + 1 =>
    match data.drop pos with
    | b0 :: b1 :: b2 :: b3 :: _ =>
      match readU32s data (pos + 4) n with
      | .ok rest => .ok (u32le b0 b1 b2 b3 :: rest)
      | .error e => .error e
    | _ => .error .ioError

/-- One `Cursor` sector read of `read_file`: seek to `p0` and read `size`
bytes (`read_exact`; reading zero bytes always succeeds). -/
def readSectorBytes (raw : List Nat) (p0 size : Nat) : Except MpqError (List Nat) :=
  if size = 0 then .ok []
  else if p0 + size ≤ raw.length then .ok ((raw.drop p0).take size)
  else .error .ioError

/-- The sector loop of mpq.rs `read_file` (lines 395-419).  The pairs are
`(positions[i], positions[i+1])`; `compr_algo` is the `(u8,
Option<CompressionType>)` state; the `u32` subtraction
`positions[i+1] - positions[i]` wraps (release semantics). -/
def readSectors (inflate : List Nat → Option (List Nat)) (raw : List Nat)
    (is_compressed : Bool) (block_size block_archive_size : Nat) :
    List (Nat × Nat) → Nat × Option CompressionType → List Nat →
    Outcome MpqError (List Nat)
  | [], _, acc => .ok acc
  | (p0, p1) :: rest, compr_algo, acc =>
    let size := (p1 + 2 ^ 32 - p0) % 2 ^ 32
    match readSectorBytes raw p0 size with
    | .error e => .err e
    | .ok sector =>
      if is_compressed ∧ size > 0 ∧ block_size > block_archive_size then
        let compr_algo :=
          if compr_algo.1 = 0 then
            (sector.headD 0, (compressionTypeTryFrom (sector.headD 0)).toOption)
          else compr_algo
        if compr_algo.1 = sector.headD 0 then
          match compr_algo.2 with
          | some algo =>
            match decompress inflate algo (sector.drop 1) with
            | .error e => .err e
            | .ok sector' =>
              readSectors inflate raw is_compressed block_size block_archive_size
                rest compr_algo (acc ++ sector')
          | none =>
            readSectors inflate raw is_compressed block_size block_archive_size
              rest compr_algo (acc ++ sector)
        else
          readSectors inflate raw is_compressed block_size block_archive_size
            rest compr_algo (acc ++ sector)
      else
        readSectors inflate raw is_compressed block_size block_archive_size
          rest compr_algo (acc ++ sector)

/-- mpq.rs `read_file` (lines 343-423), parameterized by the cipher table
and the zlib oracle.  `&block_table[idx]` panics when `idx` is out of range
(`Vec` indexing), before any flag is inspected. -/
def readFileT (table : Nat → Nat) (inflate : List Nat → Option (List Nat))
    (f : MPQFile) (filename : List Nat) : Outcome MpqError (List Nat) :=
  match getHashTableEntryT table f filename with
  | .error e => .err e
  | .ok entry =>
    match f.header, f.block_table with
    | some header, some block_table =>
      match block_table.get? entry.block_table_index with
      | none => .panicked
      | some block =>
        if ¬ (block.flags &&& 0x80000000 = 0x80000000) then
          .err (.generic "no file exists flag")
        else if block.flags &&& 0x10000 = 0x10000 then
          .err (.generic "encryption not supported")
        else if block.archive_size = 0 then
          .ok []
        else
          match readExactAt f.fileData block.offset block.archive_size with
          | .error e => .err e
          | .ok raw_data =>
            let is_compressed := block.flags &&& 0x200 = 0x200
            if block.flags &&& 0x1000000 = 0x1000000 then
              if is_compressed ∧ block.size > block.archive_size then
                match compressionTypeTryFrom (raw_data.headD 0) with
                | .error e => .err e
                | .ok ct =>
                  match decompress inflate ct (raw_data.drop 1) with
                  | .error e => .err e
                  | .ok d => .ok d
              else .ok raw_data
            else
              let sector_size := 512 <<< header.sector_shift
              let sectors := block.size / sector_size + 1
              match readU32s raw_data 0 (sectors + 1) with
              | .error e => .err e
              | .ok positions =>
                readSectors inflate raw_data is_compressed block.size
                  block.archive_size (positions.zip positions.tail) (0, none) []
    | _, _ => .err .notLoaded

/-- mpq.rs `read_file` with the process-wide `ENCRYPTION_TABLE`. -/
def readFile (inflate : List Nat → Option (List Nat)) (f : MPQFile)
    (filename : List Nat) : Outcome MpqError (List Nat) :=
  readFileT encTableFun inflate f filename

theorem readFile_fast : readFile = readFileT encTableFast := by
  funext i f n
  rw [readFile, encTableFun_eq]

end Mpq

namespace M2

/-! ### M2 loader (m2/loader.rs) and legacy payload parser (m2/md20.rs) -/

/-- The enum `crate::errors::Error`, restricted to the variants reachable from the
embedded code paths.  `invalidM2ChunkType`/`invalidM2Magic` carry the raw
`u32` of a failed `TryFromPrimitive` conversion. -/
inductive LdError where
  | corruptedFile
  | invalidMagicValue (v : Nat)
  | invalidM2Magic (v : Nat)
  | invalidM2ChunkType (v : Nat)
  | ioError
deriving DecidableEq

/-- loader.rs `ChunkType` (`u32` discriminants). -/
inductive ChunkType where
  | md20
  | md21
  | sfid
  | txid
  | skid
  | bfid
  | afid
deriving DecidableEq

/-- The `TryFromPrimitive` conversion for `ChunkType`. -/
def chunkTypeTryFrom (v : Nat) : Except LdError ChunkType :=
  if v = 0x3032444D then .ok .md20
  else if v = 0x3132444D then .ok .md21
  else if v = 0x44494653 then .ok .sfid
  else if v = 0x44495854 then .ok .txid
  else if v = 0x44494B53 then .ok .skid
  else if v = 0x44494642 then .ok .bfid
  else if v = 0x44494641 then .ok .afid
  else .error (.invalidM2ChunkType v)

/-- loader.rs `Magic`. -/
inductive Magic where
  | md21
  | md20
deriving DecidableEq

def Magic.toU32 : Magic → Nat
  | .md21 => 0x3132444D
  | .md20 => 0x3032444D

/-- The `TryFromPrimitive` conversion for `Magic`. -/
def magicTryFrom (v : Nat) : Except LdError Magic :=
  if v = 0x3132444D then .ok .md21
  else if v = 0x3032444D then .ok .md20
  else .error (.invalidM2Magic v)

/-- One little-endian `u32` read from a cursor position; returns the value
and the advanced position (`read_u32::<LittleEndian>` on a `Cursor`). -/
def rdU32 (data : List Nat) (pos : Nat) : Except LdError (Nat × Nat) :=
  match data.drop pos with
  | b0 :: b1 :: b2 :: b3 :: _ => .ok (WowVr.u32le b0 b1 b2 b3, pos + 4)
  | _ => .error .ioError

/-- utils.rs `OffsetSize`. -/
structure OffsetSize where
  offset : Nat
  size : Nat
deriving DecidableEq

/-- md20.rs `get_offsetsize`: reads `size` first, then `offset`. -/
def get_offsetsize (data : List Nat) (pos : Nat) :
    Except LdError (OffsetSize × Nat) := do
  let (size, pos) ← rdU32 data pos
  let (offset, pos) ← rdU32 data pos
  .ok (⟨offset, size⟩, pos)

/-- common_types.rs `C3Vector`, as raw `f32` bit patterns. -/
structure C3VectorBits where
  x : Nat
  y : Nat
  z : Nat
deriving DecidableEq

/-- The reader `C3Vector::from`: three `f32` reads (kept as bit patterns). -/
def c3VectorFrom (data : List Nat) (pos : Nat) :
    Except LdError (C3VectorBits × Nat) := do
  let (x, pos) ← rdU32 data pos
  let (y, pos) ← rdU32 data pos
  let (z, pos) ← rdU32 data pos
  .ok (⟨x, y, z⟩, pos)

/-- common_types.rs `CAaBox`. -/
structure CAaBox where
  min : C3VectorBits
  max : C3VectorBits
deriving DecidableEq

/-- The reader `CAaBox::from`. -/
def caaBoxFrom (data : List Nat) (pos : Nat) :
    Except LdError (CAaBox × Nat) := do
  let (mn, pos) ← c3VectorFrom data pos
  let (mx, pos) ← c3VectorFrom data pos
  .ok (⟨mn, mx⟩, pos)

/-- md20.rs `ArrayPositions`: the `(count, offset)` pairs of the MD20
header, in field order. -/
structure ArrayPositions where
  model_name : OffsetSize
  global_loops : OffsetSize
  animations : OffsetSize
  animation_lookup : OffsetSize
  bones : OffsetSize
  vertices : OffsetSize
  colors : OffsetSize
  textures : OffsetSize
  texture_weights : OffsetSize
  texture_transforms : OffsetSize
  replaceable_texture_lookups : OffsetSize
  materials : OffsetSize
  texture_combos : OffsetSize
  transparency_lookups : OffsetSize
  texture_transform_lookups : OffsetSize
  bone_indices : OffsetSize
  bone_combos : OffsetSize
  texture_coords_combos : OffsetSize
  collision_indices : OffsetSize
  collision_positions : OffsetSize
  collision_facenormals : OffsetSize
  attachments : OffsetSize
  attachments_lookup_table : OffsetSize
  events : OffsetSize
  lights : OffsetSize
  cameras : OffsetSize
  camera_lookup_table : OffsetSize
  ribbon_emitters : OffsetSize
  particle_emitters : OffsetSize
  texture_combiner_combos : Option OffsetSize
deriving DecidableEq

/-- md20.rs `Data` as produced by `parse_chunk` (the lazily-filled
`model_name`/`array_data` caches start out `None` and are omitted;
`raw_data` is the shared buffer and is kept by the caller). -/
structure MD20Data where
  offset : Nat
  version : Nat
  flags : Nat
  view_count : Nat
  array_positions : ArrayPositions
  bounding_box : CAaBox
  bounding_sphere_radius : Nat
  collision_box : CAaBox
  collision_sphere_radius : Nat
deriving DecidableEq

/-- The header reads of md20.rs `parse_chunk` after the magic check
(lines 187-273), continuing at cursor position `pos`. -/
def parse_chunk_rest (raw_data : List Nat) (ofs : Nat) (pos : Nat) :
    Except LdError MD20Data := do
    let (version, pos) ← rdU32 raw_data pos
    let (model_name, pos) ← get_offsetsize raw_data pos
    let (flags, pos) ← rdU32 raw_data pos
    let (global_loops, pos) ← get_offsetsize raw_data pos
    let (animations, pos) ← get_offsetsize raw_data pos
    let (animation_lookup, pos) ← get_offsetsize raw_data pos
    let (bones, pos) ← get_offsetsize raw_data pos
    let (bone_indices, pos) ← get_offsetsize raw_data pos
    let (vertices, pos) ← get_offsetsize raw_data pos
    let (view_count, pos) ← rdU32 raw_data pos
    let (colors, pos) ← get_offsetsize raw_data pos
    let (textures, pos) ← get_offsetsize raw_data pos
    let (texture_weights, pos) ← get_offsetsize raw_data pos
    let (texture_transforms, pos) ← get_offsetsize raw_data pos
    let (replaceable_texture_lookups, pos) ← get_offsetsize raw_data pos
    let (materials, pos) ← get_offsetsize raw_data pos
    let (bone_combos, pos) ← get_offsetsize raw_data pos
    let (texture_combos, pos) ← get_offsetsize raw_data pos
    let (texture_coords_combos, pos) ← get_offsetsize raw_data pos
    let (transparency_lookups, pos) ← get_offsetsize raw_data pos
    let (texture_transform_lookups, pos) ← get_offsetsize raw_data pos
    let (bounding_box, pos) ← caaBoxFrom raw_data pos
    let (bounding_sphere_radius, pos) ← rdU32 raw_data pos
    let (collision_box, pos) ← caaBoxFrom raw_data pos
    let (collision_sphere_radius, pos) ← rdU32 raw_data pos
    let (collision_indices, pos) ← get_offsetsize raw_data pos
    let (collision_positions, pos) ← get_offsetsize raw_data pos
    let (collision_facenormals, pos) ← get_offsetsize raw_data pos
    let (attachments, pos) ← get_offsetsize raw_data pos
    let (attachments_lookup_table, pos) ← get_offsetsize raw_data pos
    let (events, pos) ← get_offsetsize raw_data pos
    let (lights, pos) ← get_offsetsize raw_data pos
    let (cameras, pos) ← get_offsetsize raw_data pos
    let (camera_lookup_table, pos) ← get_offsetsize raw_data pos
    let (ribbon_emitters, pos) ← get_offsetsize raw_data pos
    let (particle_emitters, pos) ← get_offsetsize raw_data pos
    let texture_combiner_combos ←
      if flags &&& 0x8 = 0x8 then do
        let (tcc, _) ← get_offsetsize raw_data pos
        pure (some tcc)
      else
        pure none
    .ok { offset := ofs, version, flags, view_count,
          array_positions :=
            { model_name, global_loops, animations, animation_lookup, bones,
              bone_indices, vertices, colors, textures, texture_weights,
              texture_transforms, replaceable_texture_lookups, materials,
              bone_combos, texture_combos, texture_coords_combos,
              transparency_lookups, texture_transform_lookups,
              collision_indices, collision_positions, collision_facenormals,
              attachments, attachments_lookup_table, events, lights, cameras,
              camera_lookup_table, ribbon_emitters, particle_emitters,
              texture_combiner_combos },
          bounding_box, bounding_sphere_radius, collision_box,
          collision_sphere_radius }

/-- md20.rs `parse_chunk` (lines 178-274).  NB: the cursor is created over
the whole buffer and the magic is read at position 0 — the `ofs` argument is
only stored in the result (it is used later for array reads), so a chunk
payload at a nonzero offset is never actually parsed there. -/
def parse_chunk (raw_data : List Nat) (ofs : Nat) : Except LdError MD20Data := do
  let (magicv, pos) ← rdU32 raw_data 0
  let magic ← magicTryFrom magicv
  if magic ≠ Magic.md20 then
    .error (.invalidMagicValue magic.toU32)
  else
    parse_chunk_rest raw_data ofs pos

/-- The chunk-walking `while` loop of loader.rs `load` (lines 96-128).
`chunk_id` is read once before the loop and never re-read; each iteration
reads a single `u32` (the would-be chunk size) and jumps past it.  The
`unreachable!()` arms and the `unreachable!("not implemented")` after the
loop are panics.  `fuel` bounds the iteration count (each step advances the
position by at least 4, so `raw.length` steps never run out). -/
def loadLoop (raw : List Nat) (chunk_id : ChunkType) :
    Nat → Nat → Option MD20Data → Outcome LdError MD20Data
  | 0, _, _ => .panicked
  | fuel + 1, pos, data? =>
    if pos < raw.length then
      match rdU32 raw pos with
      | .error e => .err e
      | .ok (chunk_size, pos') =>
        let next_chunk_pos := pos' + chunk_size
        match chunk_id with
        | .md20 => .panicked
        | .md21 =>
          if data?.isSome then .err .corruptedFile
          else
            match parse_chunk raw pos' with
            | .error e => .err e
            | .ok d => loadLoop raw chunk_id fuel next_chunk_pos (some d)
        | _ => loadLoop raw chunk_id fuel next_chunk_pos data?
    else .panicked

/-- loader.rs `load` (lines 80-139): dispatch on the first `u32`.  The
`file_id`/`raw_data` fields of the returned `M2Old` carry no decoded
information, so the parsed `Data` is returned directly. -/
def load (raw_data : List Nat) : Outcome LdError MD20Data :=
  match rdU32 raw_data 0 with
  | .error e => .err e
  | .ok (v, _) =>
    match chunkTypeTryFrom v with
    | .error e => .err e
    | .ok chunk_id =>
      if chunk_id = ChunkType.md20 then
        match parse_chunk raw_data 0 with
        | .error e => .err e
        | .ok d => .ok d
      else
        loadLoop raw_data chunk_id (raw_data.length + 1) 0 none

end M2

namespace Geom

/-! ### Vertex transforms (utils.rs, m2/loader.rs) and sub-mesh geometry
(m2.rs `M2Asset::new`, m2/loader.rs `M2::to_mesh4`)

`f32` components are touched only by moves and by `* -1.` (an exact sign
flip for every non-NaN value), so they are modelled as `Int`. -/

/-- An `f32` value in the positions/normals pipeline. -/
abbrev F32 := Int

/-- The type `bevy::math::Vec3`. -/
structure Vec3 where
  x : F32
  y : F32
  z : F32
deriving DecidableEq

/-- The type `bevy::math::Vec2`. -/
structure Vec2 where
  x : F32
  y : F32
deriving DecidableEq

/-- utils.rs `read_vec3` (lines 67-73): three consecutive `f32` reads; the
struct literal assigns the first read to `x`, the second (negated) to `z`,
and the third to `y`.  The byte-level `f32` decoding is abstracted into a
stream of already-decoded values. -/
def read_vec3 : List F32 → Option (Vec3 × List F32)
  | r0 :: r1 :: r2 :: rest => some ({ x := r0, z := r1 * -1, y := r2 }, rest)
  | _ => none

/-- The in-place vertex fix-up of loader.rs `load_from_mpq` (lines 560-568)
and m2.rs `M2Loader::load` (lines 335-343): `y ← z`, `z ← -y`, `x`
unchanged; the same statements are applied to the normal. -/
def fix_vertex (v : Vec3) : Vec3 :=
  { x := v.x, y := v.z, z := v.y * -1 }

/-- The position components pushed per vertex by loader.rs `M2::to_mesh4`
(lines 465-474): `x`, `z * -1.`, `y` — applied to the already fixed-up
model vertices.  The normal components are pushed the same way. -/
def to_mesh4_components (v : Vec3) : List F32 :=
  [v.x, v.z * -1, v.y]

/-- The sub-mesh fields of `wow_m2::OldSkin`'s submesh records used by the
embedded code (`triangle_start`, `triangle_count`, both `u16`). -/
structure SkinSubmesh where
  triangle_start : Nat
  triangle_count : Nat
deriving DecidableEq

/-- The fields of a parsed `wow_m2::OldSkin` used by the embedded code:
`indices` is the vertex-index array (`u16`, into the model's vertex array),
`triangles` is the triangle-index array (`u16`, into `indices`). -/
structure OldSkin where
  indices : List Nat
  triangles : List Nat
  submeshes : List SkinSubmesh
deriving DecidableEq

/-- The triangle loop of m2.rs `M2Asset::new` (lines 213-219):
`for vi in 0..triangle_count { push(indices[triangles[start + vi]]) }`.
A `Vec` index out of range panics, modelled by `none`.  `vi` counts up from
the given start value. -/
def m2AssetTriLoop (indices triangles : List Nat) (tstart : Nat) :
    Nat → Nat → Option (List Nat)
  | 0, _ => some []
  | k + 1, vi =>
    match triangles.get? (tstart + vi) with
    | none => none
    | some t =>
      match indices.get? t with
      | none => none
      | some idx =>
        match m2AssetTriLoop indices triangles tstart k (vi + 1) with
        | none => none
        | some rest => some (idx :: rest)

/-- The per-sub-mesh triangle-index buffer built by m2.rs `M2Asset::new`. -/
def m2AssetSubmeshTriangles (skin : OldSkin) (sm : SkinSubmesh) :
    Option (List Nat) :=
  m2AssetTriLoop skin.indices skin.triangles sm.triangle_start sm.triangle_count 0

/-- loader.rs `VertexIndices` (line 170). -/
structure VertexIndices where
  v : Nat
  vt : Nat
  vn : Nat
deriving DecidableEq

/-- The value `usize::MAX`, the `tobj` sentinel for a missing texcoord/normal index. -/
def usizeMax : Nat := 2 ^ 64 - 1

/-- The face-building loop of loader.rs `M2::to_mesh4` (lines 490-524):
`for vi in 0..triangle_count / 3`, reading the triangle slots `start + vi`,
`start + vi + 1`, `start + vi + 2` (`vi` advances by one per face).  `Vec`
indexing panics out of range (`none`). -/
def toMesh4FaceLoop (indices triangles : List Nat) (tstart : Nat) :
    Nat → Nat → Option (List (VertexIndices × VertexIndices × VertexIndices))
  | 0, _ => some []
  | k + 1, vi =>
    match (triangles.get? (tstart + vi)).bind indices.get?,
          (triangles.get? (tstart + vi + 1)).bind indices.get?,
          (triangles.get? (tstart + vi + 2)).bind indices.get? with
    | some index, some index2, some index3 =>
      match toMesh4FaceLoop indices triangles tstart k (vi + 1) with
      | none => none
      | some rest =>
        some ((⟨index, index, index⟩, ⟨index2, index2, index2⟩,
               ⟨index3, index3, index3⟩) :: rest)
    | _, _, _ => none

/-- The type `tobj::Mesh`, restricted to the fields the embedded code touches. -/
structure TMesh where
  positions : List F32
  vertex_color : List F32
  texcoords : List F32
  normals : List F32
  indices : List Nat
  face_arities : List Nat
deriving DecidableEq

/-- The `tobj::LoadError` variants raised by `add_vertex`. -/
inductive TLoadError where
  | faceVertexOutOfBounds
  | faceTexCoordOutOfBounds
  | faceNormalOutOfBounds
  | faceColorOutOfBounds
deriving DecidableEq

/-- The map `HashMap<VertexIndices, u32>` as an association list (insertion order;
`add_vertex` only inserts keys that are absent). -/
def mapLookup (m : List (VertexIndices × Nat)) (k : VertexIndices) : Option Nat :=
  (m.find? (fun e => e.1 == k)).map (·.2)

/-- loader.rs `add_vertex` (lines 236-287): dedup a face corner through the
index map, append new vertex data, push the corner's mesh-local index.
`saturating_mul/saturating_add` cannot overflow in the `Nat` model. -/
def add_vertex (mesh : TMesh) (index_map : List (VertexIndices × Nat))
    (vert : VertexIndices) (pos v_color texcoord normal : List F32) :
    Except TLoadError (TMesh × List (VertexIndices × Nat)) :=
  match mapLookup index_map vert with
  | some i => .ok ({ mesh with indices := mesh.indices ++ [i] }, index_map)
  | none =>
    if vert.v * 3 + 2 ≥ pos.length then
      .error .faceVertexOutOfBounds
    else
      let mesh := { mesh with
        positions := mesh.positions ++
          [(pos.getD (vert.v * 3) 0), (pos.getD (vert.v * 3 + 1) 0),
           (pos.getD (vert.v * 3 + 2) 0)] }
      match
        (if texcoord ≠ [] ∧ vert.vt ≠ usizeMax then
          if vert.vt * 2 + 1 ≥ texcoord.length then
            .error .faceTexCoordOutOfBounds
          else
            .ok { mesh with
              texcoords := mesh.texcoords ++
                [(texcoord.getD (vert.vt * 2) 0), (texcoord.getD (vert.vt * 2 + 1) 0)] }
        else .ok mesh : Except TLoadError TMesh) with
      | .error e => .error e
      | .ok mesh =>
        match
          (if normal ≠ [] ∧ vert.vn ≠ usizeMax then
            if vert.vn * 3 + 2 ≥ normal.length then
              .error .faceNormalOutOfBounds
            else
              .ok { mesh with
                normals := mesh.normals ++
                  [(normal.getD (vert.vn * 3) 0), (normal.getD (vert.vn * 3 + 1) 0),
                   (normal.getD (vert.vn * 3 + 2) 0)] }
          else .ok mesh : Except TLoadError TMesh) with
        | .error e => .error e
        | .ok mesh =>
          match
            (if v_color ≠ [] then
              if vert.v * 3 + 2 ≥ v_color.length then
                .error .faceColorOutOfBounds
              else
                .ok { mesh with
                  vertex_color := mesh.vertex_color ++
                    [(v_color.getD (vert.v * 3) 0), (v_color.getD (vert.v * 3 + 1) 0),
                     (v_color.getD (vert.v * 3 + 2) 0)] }
            else .ok mesh : Except TLoadError TMesh) with
          | .error e => .error e
          | .ok mesh =>
            let next := index_map.length
            .ok ({ mesh with indices := mesh.indices ++ [next] },
                 index_map ++ [(vert, next)])

/-- The face fold of loader.rs `export_faces` (lines 195-227); the default
`tobj::LoadOptions` has `triangulate = false`, so an arity `3` is pushed per
face and the `is_all_triangles` clean-up at lines 228-231 clears them. -/
def exportFacesLoop (pos v_color texcoord normal : List F32) :
    List (VertexIndices × VertexIndices × VertexIndices) → TMesh →
    List (VertexIndices × Nat) → Except TLoadError (TMesh × List (VertexIndices × Nat))
  | [], mesh, index_map => .ok (mesh, index_map)
  | f :: rest, mesh, index_map =>
    match add_vertex mesh index_map f.1 pos v_color texcoord normal with
    | .error e => .error e
    | .ok (mesh, index_map) =>
      match add_vertex mesh index_map f.2.1 pos v_color texcoord normal with
      | .error e => .error e
      | .ok (mesh, index_map) =>
        match add_vertex mesh index_map f.2.2 pos v_color texcoord normal with
        | .error e => .error e
        | .ok (mesh, index_map) =>
          exportFacesLoop pos v_color texcoord normal rest
            { mesh with face_arities := mesh.face_arities ++ [3] } index_map

/-- loader.rs `export_faces` (lines 179-234). -/
def export_faces (pos v_color texcoord normal : List F32)
    (faces : List (VertexIndices × VertexIndices × VertexIndices)) :
    Except TLoadError TMesh :=
  match exportFacesLoop pos v_color texcoord normal faces
      { positions := [], vertex_color := [], texcoords := [], normals := [],
        indices := [], face_arities := [] } [] with
  | .error e => .error e
  | .ok (mesh, _) => .ok { mesh with face_arities := [] }

/-- The vertex fields of `wow_m2::M2ModelVertex` used by `to_mesh4`. -/
structure ModelVertex where
  position : Vec3
  normal : Vec3
  tex_coords : Vec2
deriving DecidableEq

/-- The vertex-array flattening of `to_mesh4` (lines 465-474): positions and
normals via `(x, z * -1., y)`, texcoords via `(x, y)`. -/
def toMesh4Positions (verts : List ModelVertex) : List F32 :=
  verts.flatMap (fun v => to_mesh4_components v.position)

def toMesh4Normals (verts : List ModelVertex) : List F32 :=
  verts.flatMap (fun v => to_mesh4_components v.normal)

def toMesh4Texcoords (verts : List ModelVertex) : List F32 :=
  verts.flatMap (fun v => [v.tex_coords.x, v.tex_coords.y])

/-- The per-sub-mesh mesh built by `to_mesh4` (lines 487-537): build the
face list, then `export_faces(positions, &[], texcoords, normals, faces)`;
the `.unwrap()` on an error is a panic (`none`). -/
def toMesh4Submesh (verts : List ModelVertex) (skin : OldSkin)
    (sm : SkinSubmesh) : Option TMesh :=
  match toMesh4FaceLoop skin.indices skin.triangles sm.triangle_start
      (sm.triangle_count / 3) 0 with
  | none => none
  | some faces =>
    match export_faces (toMesh4Positions verts) [] (toMesh4Texcoords verts)
        (toMesh4Normals verts) faces with
    | .error _ => none
    | .ok mesh => some mesh

/-- The index concatenation of loader.rs `MeshConverter::indices`
(lines 323-334): per-mesh indices shifted by the running vertex offset. -/
def meshConverterIndices : List TMesh → Nat → List Nat
  | [], _ => []
  | mesh :: rest, offset =>
    mesh.indices.map (· + offset) ++
      meshConverterIndices rest (offset + mesh.positions.length / 3)

end Geom

deriving instance DecidableEq for Except

/-! ## Concrete inputs and helper lemmas -/

/-- A zlib oracle that always reports failure (never consulted on the
concrete inputs below unless stated). -/
def inflateNone : List Nat → Option (List Nat) := fun _ => none

namespace Mpq

/-- Length/content specification of the `M2Asset::new` triangle loop. -/
theorem m2AssetTriLoop_spec (indices triangles : List Nat) (tstart : Nat) :
    ∀ (k vi : Nat) (l : List Nat),
      Geom.m2AssetTriLoop indices triangles tstart k vi = some l →
      l.length = k ∧
      ∀ j, j < k →
        l.get? j = (triangles.get? (tstart + vi + j)).bind indices.get? := by
  intro k
  induction k with
  | zero =>
    intro vi l h
    simp only [Geom.m2AssetTriLoop, Option.some.injEq] at h
    subst h
    exact ⟨rfl, fun j hj => absurd hj (by omega)⟩
  | succ k ih =>
    intro vi l h
    simp only [Geom.m2AssetTriLoop] at h
    split at h
    · exact absurd h (by simp)
    · rename_i t htri
      split at h
      · exact absurd h (by simp)
      · rename_i idx hidx
        split at h
        · exact absurd h (by simp)
        · rename_i rest hrec
          obtain ⟨hlen, hget⟩ := ih (vi + 1) rest hrec
          cases h
          refine ⟨by simp [hlen], ?_⟩
          intro j hj
          cases j with
          | zero =>
            have e : tstart + vi + 0 = tstart + vi := by omega
            rw [e, htri]
            simpa using hidx.symm
          | succ j =>
            have e : tstart + vi + (j + 1) = tstart + (vi + 1) + j := by omega
            rw [e, List.get?_cons_succ]
            exact hget j (by omega)

end Mpq

/-! ## Claim C1 -/

/-- The failing input for C1: a well-formed archive holding one multi-sector
uncompressed file whose logical size (512) is an exact multiple of the
sector size (`512 << 0`).  On disk the block has one sector, so its payload
is a 2-entry position table `[8, 520]` followed by 512 data bytes. -/
def c1Header : Mpq.FileHeader :=
  { header_size := 32, archive_size := 520, format_version := 0, sector_shift := 0,
    hash_table_offset := 0, block_table_offset := 0, hash_table_entries := 1,
    block_table_entries := 1, extended_block_table_offset := none,
    hash_table_offset_high := none, hash_table_offset_low := none }

/-- Block entry for C1: flags `EXISTS`, logical size 512, stored size 520. -/
def c1Block : Mpq.BlockTableEntry :=
  { offset := 0, archive_size := 520, size := 512, flags := 0x80000000 }

/-- Hash-table entry for C1, keyed by the name `"a"` (`hash_a`/`hash_b` are
the values of `Mpq.hash [97] .hashA` and `.hashB`, checked inside the claim
theorem). -/
def c1Entry : Mpq.HashTableEntry :=
  { hash_a := 2343791050, hash_b := 496225328, locale := 0, platform := 0,
    block_table_index := 0 }

/-- The loaded C1 archive. -/
def c1File : Mpq.MPQFile :=
  { fileData := toLEBytes 8 ++ toLEBytes 520 ++ List.replicate 512 0,
    header := some c1Header,
    hash_table := some [((2343791050, 496225328), c1Entry)],
    block_table := some [c1Block] }

set_option maxRecDepth 200000 in
/-- C1: the claim says read_file computes the sector count as
`⌈logical-size / sector-size⌉`, reads that count plus one offsets, and
returns a payload of length `logical-size`, including when the logical size
is an exact multiple of the sector size.  The code computes
`size / sector_size + 1` (mpq.rs line 381), which exceeds the ceiling
exactly at multiples: on the well-formed one-sector archive `c1File`
(logical size 512 = sector size) the code computes 2 sectors, reads 3
offsets (the third being file data), and fails with an I/O error instead of
returning the 512-byte payload. -/
theorem C1_multi_sector_exact_multiple_bug :
    Mpq.hash [97] .hashA = c1Entry.hash_a ∧
    Mpq.hash [97] .hashB = c1Entry.hash_b ∧
    c1Block.size % (512 <<< c1Header.sector_shift) = 0 ∧
    c1Block.size / (512 <<< c1Header.sector_shift) + 1 = 2 ∧
    (c1Block.size + (512 <<< c1Header.sector_shift) - 1) /
        (512 <<< c1Header.sector_shift) = 1 ∧
    Mpq.readFile inflateNone c1File [97] = .err .ioError := by
  refine ⟨?_, ?_, by decide, by decide, by decide, ?_⟩
  · rw [Mpq.hash_fast]; decide
  · rw [Mpq.hash_fast]; decide
  · rw [Mpq.readFile_fast]
    decide

/-! ## Claim C3 -/

/-- C3 counterexample: for the source vertex `(1, 2, 3)`, the claimed
emission is the fixed-up `(1, 3, -2)`, but the `to_mesh4` path re-applies
the inverse transform to the already fixed-up vertex and emits the original
`(1, 2, 3)`. -/
theorem C3_to_mesh4_counterexample :
    Geom.to_mesh4_components (Geom.fix_vertex ⟨1, 2, 3⟩) = [1, 2, 3] ∧
    Geom.fix_vertex ⟨1, 2, 3⟩ = ⟨1, 3, -2⟩ ∧
    ([1, 2, 3] : List Geom.F32) ≠ [1, 3, -2] :=
  ⟨by decide, by decide, by decide⟩

/-- C3 (amended): the decoder applies `(x, y, z) ↦ (x, z, -y)` exactly once
at deserialization (`read_vec3`) and in the in-place fix-up of
`load_from_mpq`/`M2Loader::load` (`fix_vertex`), and the paths that expose
those vertices directly (`to_mesh`, `to_mesh3`, `M2Asset::new`) emit them
unchanged; but `to_mesh4` pushes `(x, -z, y)` on top of the fixed-up
vertices, which inverts the transform, so that path emits the original
source coordinates instead of the transformed ones. -/
theorem C3_coordinate_fix_amended :
    (∀ (x y z : Geom.F32) (rest : List Geom.F32),
        Geom.read_vec3 (x :: y :: z :: rest) =
          some (Geom.fix_vertex ⟨x, y, z⟩, rest)) ∧
    (∀ v : Geom.Vec3, Geom.fix_vertex v = ⟨v.x, v.z, -v.y⟩) ∧
    (∀ v : Geom.Vec3,
        Geom.to_mesh4_components (Geom.fix_vertex v) = [v.x, v.y, v.z]) := by
  refine ⟨fun x y z rest => rfl, fun v => ?_, fun v => ?_⟩
  · show Geom.Vec3.mk v.x v.z (v.y * -1) = ⟨v.x, v.z, -v.y⟩
    simp [mul_neg_one]
  · show [v.x, v.y * -1 * -1, v.z] = [v.x, v.y, v.z]
    simp [mul_neg_one]

/-! ## Claim C6 -/

/-- C6 counterexample: the hash of `"a/b"` differs from the hash of
`"a\b"` — the code never replaces path separators (mpq.rs `hash` only
uppercases), so the two spellings hash differently. -/
theorem C6_slash_counterexample :
    Mpq.hash [97, 47, 98] .hashA ≠ Mpq.hash [97, 92, 98] .hashA := by
  rw [Mpq.hash_fast]
  decide

/-- C6 (amended): the name hash is unchanged when the string's ASCII letters
change case (the code uppercases before hashing); it is NOT invariant under
replacing `/` by `\` — no separator normalization is performed, so the two
separators index different cipher-table entries and generally produce
different hashes. -/
theorem C6_hash_case_invariance_amended :
    ∀ (s s' : List Nat) (t : Mpq.HashType),
      s.map Mpq.asciiUpper = s'.map Mpq.asciiUpper →
      Mpq.hash s t = Mpq.hash s' t := by
  intro s s' t h
  show Mpq.hashT _ s t = Mpq.hashT _ s' t
  rw [Mpq.hashT, Mpq.hashT, h]

/-- Witness: `"aBc"` and `"AbC"` hash identically (table kind). -/
theorem C6_hash_case_invariance_amended_witness :
    Mpq.hash [97, 66, 99] .table = Mpq.hash [65, 98, 67] .table :=
  C6_hash_case_invariance_amended [97, 66, 99] [65, 98, 67] .table (by decide)

/-! ## Claim C7 -/

/-- C7: the 1280-entry cipher table has the three fixed points stated by the
spec (positions 65, 806 and 1279). -/
theorem C7_cipher_table_values :
    Mpq.ENCRYPTION_TABLE.getD 65 0 = 1285056048 ∧
    Mpq.ENCRYPTION_TABLE.getD 806 0 = 1010723398 ∧
    Mpq.ENCRYPTION_TABLE.getD 1279 0 = 1929586796 := by
  refine ⟨?_, ?_, ?_⟩ <;>
    · show Mpq.encTableFun _ = _
      rw [Mpq.encTableFun_eq]
      decide

/-! ## Claim C8 -/

/-- C8 counterexample: a 1-byte input (length not a multiple of 4) does not
fail — `decrypt` returns `Ok` with a zero byte (the word loop never visits
trailing bytes and the output buffer starts zeroed). -/
theorem C8_decrypt_counterexample :
    Mpq.decrypt [0x33] 3283040112 = .ok [0] := rfl

/-- Helper: the word loop emits `4 * ⌊len / 4⌋` bytes. -/
theorem decryptWords_length (table : Nat → Nat) :
    ∀ (data : List Nat) (s1 s2 : Nat),
      (Mpq.decryptWords table data s1 s2).length = 4 * (data.length / 4) := by
  suffices H : ∀ (n : Nat) (data : List Nat), data.length ≤ n → ∀ (s1 s2 : Nat),
      (Mpq.decryptWords table data s1 s2).length = 4 * (data.length / 4) from
    fun data => H data.length data (Nat.le_refl _)
  intro n
  induction n with
  | zero =>
    intro data h s1 s2
    have hnil : data = [] := List.eq_nil_of_length_eq_zero (by omega)
    subst hnil
    simp [Mpq.decryptWords]
  | succ n ih =>
    intro data h s1 s2
    rcases data with _ | ⟨b0, _ | ⟨b1, _ | ⟨b2, _ | ⟨b3, rest⟩⟩⟩⟩
    · simp [Mpq.decryptWords]
    · simp [Mpq.decryptWords]
    · simp [Mpq.decryptWords]
    · simp [Mpq.decryptWords]
    · show (toLEBytes _ ++ Mpq.decryptWords table rest _ _).length = _
      rw [List.length_append, ih rest (by simp at h; omega)]
      simp [toLEBytes]
      omega

/-- C8 (amended): `decrypt` never fails.  For any input it returns a buffer
of the input's length whose first `4 * ⌊len / 4⌋` bytes are the decrypted
whole words; when the length is not a multiple of 4 the trailing `len % 4`
bytes are zero (the loop decrypts only whole words into a zero-initialized
buffer).  In particular inputs whose length is a multiple of 4 are decrypted
in full, and no length is rejected. -/
theorem C8_decrypt_amended :
    ∀ (data : List Nat) (key : Nat), ∃ out,
      Mpq.decrypt data key = .ok out ∧
      out.length = data.length ∧
      out.drop (4 * (data.length / 4)) = List.replicate (data.length % 4) 0 := by
  intro data key
  refine ⟨_, rfl, ?_, ?_⟩
  · show (Mpq.decryptWords Mpq.encTableFun data key 0xEEEEEEEE ++
        List.replicate (data.length % 4) 0).length = data.length
    rw [List.length_append, decryptWords_length, List.length_replicate]
    omega
  · show (Mpq.decryptWords Mpq.encTableFun data key 0xEEEEEEEE ++
        List.replicate (data.length % 4) 0).drop (4 * (data.length / 4)) = _
    rw [← decryptWords_length Mpq.encTableFun data key 0xEEEEEEEE]
    exact List.drop_left _ _

/-! ## Claim C2 -/

/-- A minimal well-formed legacy M2 buffer: the `MD20` magic followed by a
zeroed 300-byte header (version 0, all counts/offsets 0, flags 0, so no
texture-combiner pair is read; total 304 bytes). -/
def md20Buf : List Nat := [0x4D, 0x44, 0x32, 0x30] ++ List.replicate 300 0

/-- The same payload wrapped in an `MD21` chunk: tag, little-endian size
(304), then the payload. -/
def md21Buf : List Nat := [0x4D, 0x44, 0x32, 0x31] ++ toLEBytes 304 ++ md20Buf

/-- A successful `rdU32` read implies the buffer holds the four bytes. -/
theorem rdU32_length {data : List Nat} {pos : Nat} {x : Nat × Nat}
    (h : M2.rdU32 data pos = .ok x) : pos + 4 ≤ data.length := by
  unfold M2.rdU32 at h
  split at h
  · rename_i b0 b1 b2 b3 rest hd
    have hl := congrArg List.length hd
    rw [List.length_drop] at hl
    simp only [List.length_cons] at hl
    omega
  · cases h

/-- The `Except.ok` bind reduction (the `?`/`←` steps of the embedded parsers). -/
theorem ebind_ok {ε α β : Type} (a : α) (f : α → Except ε β) :
    (Except.ok a >>= f) = f a := rfl

set_option maxRecDepth 200000 in
/-- C2 counterexample: a well-formed `MD21`-wrapped buffer is rejected —
`load` fails with `InvalidMagicValue(0x3132444D)` instead of returning the
parsed model. -/
theorem C2_md21_counterexample :
    M2.load md21Buf = .err (.invalidMagicValue 0x3132444D) := by decide

/-- C2 (amended): `load` accepts the legacy form — a buffer whose first
`u32` is `MD20` is parsed as payload at offset 0, and the parse result is
returned verbatim.  Buffers whose first `u32` is `MD21` are never accepted:
`parse_chunk` reads its magic at buffer position 0 regardless of the chunk
offset it is given, sees the `MD21` tag there and fails with
`InvalidMagicValue(0x3132444D)` (moreover the chunk walker reads the tag
word as the chunk size and, were parsing to succeed, would fall through to
an `unreachable!("not implemented")` panic). -/
theorem C2_magic_dispatch_amended :
    (∀ (raw : List Nat) (x : Nat),
        M2.rdU32 raw 0 = .ok (0x3032444D, x) →
        M2.load raw = ofExcept (M2.parse_chunk raw 0)) ∧
    (∀ (raw : List Nat) (x : Nat),
        M2.rdU32 raw 0 = .ok (0x3132444D, x) →
        M2.load raw = .err (.invalidMagicValue 0x3132444D)) := by
  constructor
  · intro raw x h
    have hct : M2.chunkTypeTryFrom 0x3032444D = .ok .md20 := by decide
    simp only [M2.load, h, hct, if_true]
    cases hp : M2.parse_chunk raw 0 <;> rfl
  · intro raw x h
    have hlen : 4 ≤ raw.length := by have := rdU32_length h; omega
    have hm : M2.magicTryFrom 0x3132444D = .ok .md21 := by decide
    have hp : ∀ ofs, M2.parse_chunk raw ofs
        = .error (.invalidMagicValue 0x3132444D) := by
      intro ofs
      simp only [M2.parse_chunk, h]
      rw [ebind_ok]
      dsimp only []
      rw [hm, ebind_ok]
      rw [if_pos (by decide)]
      rfl
    have hct : M2.chunkTypeTryFrom 0x3132444D = .ok .md21 := by decide
    simp only [M2.load, h, hct]
    rw [if_neg (by decide)]
    simp only [M2.loadLoop]
    rw [if_pos (by omega)]
    simp only [h, hp]
    rfl

set_option maxRecDepth 200000 in
/-- Witness for C2 (amended): both halves applied to the concrete buffers;
the `MD20` buffer parses successfully. -/
theorem C2_magic_dispatch_amended_witness :
    M2.load md20Buf = ofExcept (M2.parse_chunk md20Buf 0) ∧
    (M2.parse_chunk md20Buf 0).isOk = true ∧
    M2.load md21Buf = .err (.invalidMagicValue 0x3132444D) :=
  ⟨C2_magic_dispatch_amended.1 md20Buf 4 (by decide), by decide,
   C2_magic_dispatch_amended.2 md21Buf 4 (by decide)⟩

/-! ## Claim C4 -/

/-- Model vertex used by the C4 counterexample (six copies give the
`to_mesh4` mesh 18 position floats, enough for indices 0..5). -/
def c4Vert : Geom.ModelVertex := ⟨⟨0, 0, 0⟩, ⟨0, 0, 1⟩, ⟨0, 0⟩⟩

def c4Verts : List Geom.ModelVertex := List.replicate 6 c4Vert

/-- A skin with identity vertex-index and triangle-index arrays and one
sub-mesh covering 6 triangle slots. -/
def c4Skin : Geom.OldSkin := ⟨[0, 1, 2, 3, 4, 5], [0, 1, 2, 3, 4, 5], [⟨0, 6⟩]⟩

def c4Sm : Geom.SkinSubmesh := ⟨0, 6⟩

/-- C4 counterexample: on the `to_mesh4` path the emitted per-sub-mesh index
buffer is `[0, 1, 2, 1, 2, 3]` (the loop walks overlapping windows
`start+vi, start+vi+1, start+vi+2` for `vi < count/3`), which differs from
the claimed buffer `indices[triangles[start+k]]` for `k < count` — the
latter (as built by `M2Asset::new`) is `[0, 1, 2, 3, 4, 5]`. -/
theorem C4_to_mesh4_indices_counterexample :
    (Geom.toMesh4Submesh c4Verts c4Skin c4Sm).map Geom.TMesh.indices
      = some [0, 1, 2, 1, 2, 3] ∧
    (Geom.toMesh4Submesh c4Verts c4Skin c4Sm).map
        (fun m => Geom.meshConverterIndices [m] 0) = some [0, 1, 2, 1, 2, 3] ∧
    Geom.m2AssetSubmeshTriangles c4Skin c4Sm = some [0, 1, 2, 3, 4, 5] ∧
    ([0, 1, 2, 1, 2, 3] : List Nat) ≠ [0, 1, 2, 3, 4, 5] :=
  ⟨by decide, by decide, by decide, by decide⟩

/-- C4 (amended): on the `M2Asset::new` path the claim holds as stated —
when the loop completes without an out-of-range panic, the emitted buffer
has length `triangle-count` and its `k`-th element is
`indices[triangles[start + k]]`.  The `to_mesh4` path differs: it iterates
`vi ∈ [0, count/3)` over the overlapping slot windows `start+vi .. start+vi+2`
and then remaps the results into a per-sub-mesh deduplicated vertex list, so
its emitted buffer is not the claimed one. -/
theorem C4_submesh_indices_amended :
    ∀ (skin : Geom.OldSkin) (sm : Geom.SkinSubmesh) (l : List Nat),
      Geom.m2AssetSubmeshTriangles skin sm = some l →
      l.length = sm.triangle_count ∧
      ∀ k, k < sm.triangle_count →
        l.get? k = (skin.triangles.get? (sm.triangle_start + k)).bind
          skin.indices.get? := by
  intro skin sm l h
  obtain ⟨hlen, hget⟩ :=
    Mpq.m2AssetTriLoop_spec skin.indices skin.triangles sm.triangle_start
      sm.triangle_count 0 l h
  refine ⟨hlen, fun k hk => ?_⟩
  have e : sm.triangle_start + 0 + k = sm.triangle_start + k := by omega
  rw [← e]
  exact hget k hk

/-- Skin for the C4 witness: `indices = [10, 11, 12]`, reversing triangle
order. -/
def c4wSkin : Geom.OldSkin := ⟨[10, 11, 12], [2, 1, 0], [⟨0, 3⟩]⟩

/-- Witness for C4 (amended) at a concrete skin. -/
theorem C4_submesh_indices_amended_witness :
    Geom.m2AssetSubmeshTriangles c4wSkin ⟨0, 3⟩ = some [12, 11, 10] ∧
    ([12, 11, 10] : List Nat).get? 1
      = (c4wSkin.triangles.get? (0 + 1)).bind c4wSkin.indices.get? :=
  ⟨by decide,
   (C4_submesh_indices_amended c4wSkin ⟨0, 3⟩ [12, 11, 10] (by decide)).2
     1 (by decide)⟩

/-! ## Claim C5 -/

/-- A decoded model with a single vertex. -/
def c5Verts : List Geom.ModelVertex := [⟨⟨0, 0, 0⟩, ⟨0, 0, 1⟩, ⟨0, 0⟩⟩]

/-- A skin whose vertex-index array holds the out-of-range index 5. -/
def c5Skin : Geom.OldSkin := ⟨[5], [0], [⟨0, 1⟩]⟩

def c5Sm : Geom.SkinSubmesh := ⟨0, 1⟩

/-- C5 counterexample: the decoder performs no bounds check against the
model's vertex count — with one model vertex and a skin index of 5 the
emitted sub-mesh buffer is `[5]`, and `5 < 1` fails. -/
theorem C5_index_bounds_counterexample :
    Geom.m2AssetSubmeshTriangles c5Skin c5Sm = some [5] ∧
    c5Verts.length = 1 ∧
    ¬ (5 < c5Verts.length) :=
  ⟨by decide, by decide, by decide⟩

/-- C5 (amended): the emitted indices are copied verbatim from the skin's
vertex-index array, so they are bounded by the model's vertex count exactly
when every entry of that array is; the code itself performs no check, and a
skin with out-of-range entries yields out-of-range emitted indices. -/
theorem C5_index_bounds_amended :
    ∀ (skin : Geom.OldSkin) (sm : Geom.SkinSubmesh) (l : List Nat) (n : Nat),
      (∀ i ∈ skin.indices, i < n) →
      Geom.m2AssetSubmeshTriangles skin sm = some l →
      ∀ x ∈ l, x < n := by
  intro skin sm l n hbound h x hx
  obtain ⟨hlen, hget⟩ :=
    Mpq.m2AssetTriLoop_spec skin.indices skin.triangles sm.triangle_start
      sm.triangle_count 0 l h
  obtain ⟨j, hj⟩ := List.mem_iff_get?.mp hx
  have hjlen : j < l.length := by
    by_contra hc
    rw [List.get?_eq_none.mpr (by omega)] at hj
    cases hj
  have := hget j (by omega)
  rw [hj] at this
  cases htri : skin.triangles.get? (sm.triangle_start + 0 + j) with
  | none => rw [htri] at this; cases this
  | some t =>
    rw [htri] at this
    exact hbound x (List.get?_mem this.symm)

/-- Skin for the C5 witness: all indices in range. -/
def c5wSkin : Geom.OldSkin := ⟨[0], [0], [⟨0, 1⟩]⟩

/-- Witness for C5 (amended) at a concrete skin and bound. -/
theorem C5_index_bounds_amended_witness :
    Geom.m2AssetSubmeshTriangles c5wSkin ⟨0, 1⟩ = some [0] ∧ (0 : Nat) < 1 :=
  ⟨by decide,
   C5_index_bounds_amended c5wSkin ⟨0, 1⟩ [0] 1 (by decide) (by decide)
     0 (by decide)⟩

/-! ## Claim C9 -/

/-- Tests for an `UnsupportedCompression` error outcome. -/
def isUnsupportedCompressionErr : Outcome Mpq.MpqError (List Nat) → Bool
  | .err (.unsupportedCompression _) => true
  | _ => false

/-- C9 single-unit input: flags `EXISTS|COMPRESS|SINGLE_UNIT`, logical size
10 > stored size 5, leading algorithm byte `0x22` (an unrecognized
composite code). -/
def c9sHeader : Mpq.FileHeader :=
  { header_size := 32, archive_size := 5, format_version := 0, sector_shift := 0,
    hash_table_offset := 0, block_table_offset := 0, hash_table_entries := 1,
    block_table_entries := 1, extended_block_table_offset := none,
    hash_table_offset_high := none, hash_table_offset_low := none }

def c9sBlock : Mpq.BlockTableEntry :=
  { offset := 0, archive_size := 5, size := 10, flags := 0x81000200 }

def c9sEntry : Mpq.HashTableEntry :=
  { hash_a := 2343791050, hash_b := 496225328, locale := 0, platform := 0,
    block_table_index := 0 }

def c9sFile : Mpq.MPQFile :=
  { fileData := [0x22, 1, 2, 3, 4],
    header := some c9sHeader,
    hash_table := some [((2343791050, 496225328), c9sEntry)],
    block_table := some [c9sBlock] }

/-- C9 multi-sector input: flags `EXISTS|COMPRESS`, logical size 600 >
stored size 20; two sectors whose leading bytes are `0x22` and `7`. -/
def c9mBlock : Mpq.BlockTableEntry :=
  { offset := 0, archive_size := 20, size := 600, flags := 0x80000200 }

def c9mFile : Mpq.MPQFile :=
  { fileData := toLEBytes 12 ++ toLEBytes 16 ++ toLEBytes 20 ++
      [0x22, 9, 9, 9] ++ [7, 7, 7, 7],
    header := some c9sHeader,
    hash_table := some [((2343791050, 496225328), c9sEntry)],
    block_table := some [c9mBlock] }

set_option maxRecDepth 200000 in
/-- C9 counterexample: on the single-unit path an unrecognized leading byte
(`0x22`) fails with `UnknownCompression(0x22)` — not with an
`UnsupportedCompression` error as the claim states. -/
theorem C9_unknown_compression_counterexample :
    Mpq.readFile inflateNone c9sFile [97] = .err (.unknownCompression 0x22) ∧
    isUnsupportedCompressionErr (Mpq.readFile inflateNone c9sFile [97]) = false := by
  constructor
  · rw [Mpq.readFile_fast]; decide
  · rw [Mpq.readFile_fast]; decide

/-- C9 (amended): `UnsupportedCompression` is raised only for a byte that is
a recognized-but-unimplemented algorithm code (anything except zlib's
`0x02`); a byte outside the recognized code set is converted to
`UnknownCompression(byte)` instead, which the single-unit path surfaces as
the read's error; and on the multi-sector path an unrecognized byte raises
no error at all — the `TryFrom` failure is discarded (`.ok()`) and the
sector is appended verbatim, as evaluated on `c9mFile`. -/
theorem C9_compression_errors_amended :
    (∀ (inflate : List Nat → Option (List Nat)) (t : Mpq.CompressionType)
        (data : List Nat), t ≠ .zlib →
        Mpq.decompress inflate t data = .error (.unsupportedCompression t)) ∧
    (∀ b : Nat, b ∉ ([0x01, 0x02, 0x08, 0x10, 0x20, 0x40, 0x80] : List Nat) →
        Mpq.compressionTypeTryFrom b = .error (.unknownCompression b)) ∧
    Mpq.readFile inflateNone c9mFile [97] = .ok [0x22, 9, 9, 9, 7, 7, 7, 7] := by
  refine ⟨?_, ?_, ?_⟩
  · intro inflate t data ht
    cases t <;> first | rfl | exact absurd rfl ht
  · intro b hb
    simp only [List.mem_cons, List.not_mem_nil, or_false, not_or] at hb
    obtain ⟨h1, h2, h3, h4, h5, h6, h7⟩ := hb
    simp [Mpq.compressionTypeTryFrom, h1, h2, h3, h4, h5, h6, h7]
  · rw [Mpq.readFile_fast]
    decide

/-- Witness for C9 (amended): the bzip2 code yields `UnsupportedCompression`,
the byte `0x22` yields `UnknownCompression`, and the multi-sector read
passes the `0x22` sector through verbatim. -/
theorem C9_compression_errors_amended_witness :
    Mpq.decompress inflateNone .bzip2 [] = .error (.unsupportedCompression .bzip2) ∧
    Mpq.compressionTypeTryFrom 0x22 = .error (.unknownCompression 0x22) ∧
    Mpq.readFile inflateNone c9mFile [97] = .ok [0x22, 9, 9, 9, 7, 7, 7, 7] :=
  ⟨C9_compression_errors_amended.1 inflateNone .bzip2 [] (by decide),
   C9_compression_errors_amended.2.1 0x22 (by decide),
   C9_compression_errors_amended.2.2⟩

/-! ## Claim C10 -/

/-- C10: `read_file` indexes the block table with the matched entry's
`block_table_index` without any range or marker check: whenever the loaded
hash table maps the requested name's hash pair to an entry whose
`block_table_index` is at or beyond the block-table length (for example the
empty marker `0xFFFFFFFF`), `read_file` panics on the out-of-bounds `Vec`
index before any flag or `EXISTS` check runs, instead of returning an
error. -/
theorem C10_block_index_panic :
    ∀ (f : Mpq.MPQFile) (inflate : List Nat → Option (List Nat))
      (name : List Nat) (h : Mpq.FileHeader)
      (ht : List ((Nat × Nat) × Mpq.HashTableEntry))
      (bt : List Mpq.BlockTableEntry) (e : Mpq.HashTableEntry),
      f.header = some h → f.hash_table = some ht → f.block_table = some bt →
      Mpq.lookupHashTable ht (Mpq.hash name .hashA, Mpq.hash name .hashB) = some e →
      bt.length ≤ e.block_table_index →
      Mpq.readFile inflate f name = .panicked := by
  intro f inflate name h ht bt e hh hht hbt hlook hlen
  simp only [Mpq.hash] at hlook
  simp only [Mpq.readFile, Mpq.readFileT, Mpq.getHashTableEntryT, hht, hlook, hh, hbt]
  rw [List.get?_eq_none.mpr hlen]

/-- Header of the C10 witness archive (contents irrelevant to the panic). -/
def c10Header : Mpq.FileHeader :=
  { header_size := 32, archive_size := 0, format_version := 0, sector_shift := 0,
    hash_table_offset := 0, block_table_offset := 0, hash_table_entries := 1,
    block_table_entries := 0, extended_block_table_offset := none,
    hash_table_offset_high := none, hash_table_offset_low := none }

/-- Hash-table entry carrying the empty marker `0xFFFFFFFF` as its block
index, keyed by the hash pair of the name `"x"` (the literals are the values
of `Mpq.hash [120] .hashA`/`.hashB`, checked in the witness proof). -/
def c10Entry : Mpq.HashTableEntry :=
  { hash_a := 2496309689, hash_b := 3740626230,
    locale := 0, platform := 0, block_table_index := 0xFFFFFFFF }

/-- The C10 witness archive: empty block table, one hash-table entry whose
block index is the empty marker. -/
def c10File : Mpq.MPQFile :=
  { fileData := [],
    header := some c10Header,
    hash_table := some [((2496309689, 3740626230), c10Entry)],
    block_table := some [] }

/-- Witness for C10: reading `"x"` from the witness archive panics. -/
theorem C10_block_index_panic_witness :
    Mpq.readFile inflateNone c10File [120] = .panicked := by
  have hA : Mpq.hash [120] .hashA = 2496309689 := by rw [Mpq.hash_fast]; decide
  have hB : Mpq.hash [120] .hashB = 3740626230 := by rw [Mpq.hash_fast]; decide
  exact C10_block_index_panic c10File inflateNone [120] c10Header _ _ c10Entry
    rfl rfl rfl (by rw [hA, hB]; decide) (by decide)

end WowVr
